import Mathlib

/-!
Verification of the content-discovery (retrieval) pipeline and the frontend
state handlers of the Mental Wellness Platform.

The frontend handlers (`handleSendMessage` in the chatbot page,
`handleSearch` in the scrape/sentiment-analysis page) are embedded from the
TypeScript sources.  The backend retrieval pipeline (search, fetch, chunk,
embed, rank, assemble) is not present in the source tree — only its caller
and response shape are — so it is modelled from the specification, with each
such definition marked `Modelled from the spec:` in its doc comment.
-/

namespace Pipeline

/-- Modelled from the spec: per-page terminal status of the Page Fetcher and
Extractor (section 4.2); the backend scraper module is not in the source tree. -/
inductive PageStatus where
  | ok
  | fetch_failed
  | extract_empty
  | timeout
deriving DecidableEq

/-- Modelled from the spec: a search-result candidate `{url, rank}` from the
Link Resolver (section 3); the backend module is not in the source tree. -/
structure CandidateLink where
  url : String
  rank : Nat
deriving DecidableEq

/-- Modelled from the spec: `{source_url, raw_text, status}` produced by the
Page Fetcher and Extractor (section 3); backend module not in the source tree. -/
structure PageExtraction where
  source_url : String
  raw_text : String
  status : PageStatus
deriving DecidableEq

/-- Modelled from the spec: a contiguous text window from one page,
`{text, source_url, sequence_index}` (section 3); backend not in the source tree. -/
structure Chunk where
  text : String
  source_url : String
  sequence_index : Nat
deriving DecidableEq

/-- Modelled from the spec: a chunk together with its dense vector and the
original Link Resolver rank of its page, as consumed by the Ranker
(sections 3, 4.5); backend module not in the source tree.  Vector entries are
integers (scaled coordinates): the model works over exact arithmetic, so the
float-epsilon score comparison of the spec degenerates to exact equality. -/
structure EmbeddedChunk where
  text : String
  source_url : String
  sequence_index : Nat
  page_rank : Nat
  vector : List ℤ
deriving DecidableEq

/-- Modelled from the spec: a ranked chunk carrying its similarity score
(`RankedResult` before projection to the response shape, section 3);
backend module not in the source tree. -/
structure ScoredChunk where
  text : String
  source_url : String
  sequence_index : Nat
  page_rank : Nat
  score : ℤ
deriving DecidableEq

/-- Modelled from the spec: the externally visible result entry
`{text: string, source: string}` (section 6). -/
structure ResultEntry where
  text : String
  source : String
deriving DecidableEq

/-- Modelled from the spec: the response shape
`{query, total_links_found, pages_scraped, total_chunks, results, error?}`
(sections 4.6 and 6); backend module not in the source tree. -/
structure Response where
  query : String
  total_links_found : Nat
  pages_scraped : Nat
  total_chunks : Nat
  results : List ResultEntry
  error : Option String
deriving DecidableEq

/-- Modelled from the spec: the immutable configuration structure of
section 9 (maximum candidate links, chunk window size, chunk overlap,
minimum chunk length, top-K). -/
structure Config where
  max_links : Nat
  window_size : Nat
  overlap : Nat
  min_chunk_chars : Nat
  top_k : Nat

/-- Keep the first element carrying each key not already in `seen`,
preserving order (worker of `dedupKeyed`). -/
def dedupSeen {α β : Type} [DecidableEq β] (key : α → β) : List β → List α → List α
  | _, [] => []
  | seen, a :: as =>
    if key a ∈ seen then dedupSeen key seen as
    else a :: dedupSeen key (key a :: seen) as

/-- Keep the first occurrence of each key, preserving order (used for URL
deduplication in the Link Resolver and text deduplication in the Ranker). -/
def dedupKeyed {α β : Type} [DecidableEq β] (key : α → β) (l : List α) : List α :=
  dedupSeen key [] l

/-- Modelled from the spec: URL normalization for deduplication — scheme,
host and path with the query string stripped (section 3). -/
def normalizeUrl (u : String) : String :=
  String.mk (u.data.takeWhile (fun c => c ≠ '?'))

/-- Modelled from the spec: the Link Resolver (section 4.1) — deduplicate the
provider links by normalized URL, preserving provider order, and truncate to
`max_links`; backend module not in the source tree. -/
def resolve (maxLinks : Nat) (provided : List CandidateLink) : List CandidateLink :=
  (dedupKeyed (fun l => normalizeUrl l.url) provided).take maxLinks

/-- Windowing worker: emit `w`-character windows advancing by `step`
characters; the final window (the remainder once no more than `w` characters
are left) may be shorter.  `fuel` bounds the recursion and is immaterial as
soon as it is at least the text length and `step` is positive. -/
def windowsAux : Nat → List Char → Nat → Nat → List (List Char)
  | _, [], _, _ => []
  | 0, _ :: _, _, _ => []
  | fuel + 1, c :: cs, w, step =>
    if (c :: cs).length ≤ w then [c :: cs]
    else (c :: cs).take w :: windowsAux fuel ((c :: cs).drop step) w step

/-- Modelled from the spec: split a character list into windows of `w`
characters advancing by `step` characters each step (section 4.3); the
backend chunker is not in the source tree. -/
def windows (raw : List Char) (w step : Nat) : List (List Char) :=
  windowsAux raw.length raw w step

/-- Modelled from the spec: the Chunker (section 4.3) — split `raw_text` into
overlapping windows advancing by `window_size - overlap`, assign monotone
sequence indices, and drop chunks shorter than the minimum length; backend
module not in the source tree. -/
def chunkPage (w o minLen : Nat) (pe : PageExtraction) : List Chunk :=
  (windows pe.raw_text.data w (w - o)).enum.filterMap
    (fun p => if minLen ≤ p.2.length then some ⟨String.mk p.2, pe.source_url, p.1⟩ else none)

/-- Modelled from the spec: fetch every candidate link, pairing each page
extraction with its link rank (section 4.2).  Fetching itself is the opaque
capability `fetchFn`; failures are values of `PageStatus`, never exceptions. -/
def fetchAll (links : List CandidateLink) (fetchFn : CandidateLink → PageExtraction) :
    List (Nat × PageExtraction) :=
  links.map (fun l => (l.rank, fetchFn l))

/-- Modelled from the spec: only `status == ok` extractions flow to the
Chunker (section 4.2). -/
def okPages (links : List CandidateLink) (fetchFn : CandidateLink → PageExtraction) :
    List (Nat × PageExtraction) :=
  (fetchAll links fetchFn).filter (fun p => decide (p.2.status = PageStatus.ok))

/-- Modelled from the spec: all chunks of all successfully scraped pages, in
page order, each paired with its page rank (sections 4.2 and 4.3). -/
def pipelineChunks (cfg : Config) (links : List CandidateLink)
    (fetchFn : CandidateLink → PageExtraction) : List (Nat × Chunk) :=
  (okPages links fetchFn).flatMap
    (fun p => (chunkPage cfg.window_size cfg.overlap cfg.min_chunk_chars p.2).map
      (fun c => (p.1, c)))

/-- Dot product of two integer vectors (similarity of normalized vectors in
scaled exact arithmetic, section 4.5). -/
def dot : List ℤ → List ℤ → ℤ
  | a :: as, b :: bs => a * b + dot as bs
  | _, _ => 0

/-- Modelled from the spec: score one embedded chunk against the query
vector (section 4.5). -/
def scoreOf (qv : List ℤ) (c : EmbeddedChunk) : ScoredChunk :=
  ⟨c.text, c.source_url, c.sequence_index, c.page_rank, dot qv c.vector⟩

/-- Modelled from the spec: the ranking order (section 4.5) — higher
similarity first; on equal scores the lower original page rank wins, then the
lower sequence index. -/
def rankLE (a b : ScoredChunk) : Bool :=
  if a.score = b.score then
    if a.page_rank = b.page_rank then decide (a.sequence_index ≤ b.sequence_index)
    else decide (a.page_rank < b.page_rank)
  else decide (b.score < a.score)

/-- Modelled from the spec: the Vector Index and Ranker (section 4.5) —
score every embedded chunk against the query vector, sort by the ranking
order, deduplicate identical chunk texts keeping the best-ranked occurrence,
and keep the `top_k` best; backend module not in the source tree. -/
def rank (qv : List ℤ) (embedded : List EmbeddedChunk) (k : Nat) : List ScoredChunk :=
  (dedupKeyed (fun c => c.text) ((embedded.map (scoreOf qv)).mergeSort rankLE)).take k

/-- Modelled from the spec: the embedded chunks of a run — every pipeline
chunk with its page rank and the vector the embedder assigns to its text
(section 4.4). -/
def embeddedChunks (cfg : Config) (links : List CandidateLink)
    (fetchFn : CandidateLink → PageExtraction) (embedFn : String → List ℤ) :
    List EmbeddedChunk :=
  (pipelineChunks cfg links fetchFn).map
    (fun rc => ⟨rc.2.text, rc.2.source_url, rc.2.sequence_index, rc.1, embedFn rc.2.text⟩)

/-- Modelled from the spec: the Pipeline Orchestrator (section 4.6); backend
module not in the source tree.  `provider` is the outcome of the search
provider call (`Except.error` = `SearchUnavailable`), `fetchFn` the opaque
fetch-and-extract capability, `embedder` the outcome of acquiring the
embedding backend (`Except.error` = `EmbeddingUnavailable`).  A fatal outcome
yields the `error` field populated and zero counters; zero links or zero
surviving chunks yield a valid empty-results response with accurate counters
and no embedder invocation. -/
def runPipeline (cfg : Config) (query : String)
    (provider : Except String (List CandidateLink))
    (fetchFn : CandidateLink → PageExtraction)
    (embedder : Except String (String → List ℤ)) : Response :=
  match provider with
  | .error e => ⟨query, 0, 0, 0, [], some e⟩
  | .ok provided =>
    if (pipelineChunks cfg (resolve cfg.max_links provided) fetchFn).isEmpty then
      ⟨query, (resolve cfg.max_links provided).length,
        (okPages (resolve cfg.max_links provided) fetchFn).length, 0, [], none⟩
    else
      match embedder with
      | .error e => ⟨query, 0, 0, 0, [], some e⟩
      | .ok embedFn =>
        ⟨query, (resolve cfg.max_links provided).length,
          (okPages (resolve cfg.max_links provided) fetchFn).length,
          (pipelineChunks cfg (resolve cfg.max_links provided) fetchFn).length,
          (rank (embedFn query)
              (embeddedChunks cfg (resolve cfg.max_links provided) fetchFn embedFn)
              cfg.top_k).map (fun c => ⟨c.text, c.source_url⟩),
          none⟩

end Pipeline

/-- JavaScript truthiness of a nullable string: `null` and the empty string
are falsy, any other string is truthy. -/
def jsTruthy : Option String → Bool
  | none => false
  | some s => s ≠ ""

/-- The JavaScript `String.prototype.trim`: strip leading and trailing
whitespace. -/
def jsTrim (s : String) : String :=
  String.mk (((s.data.dropWhile Char.isWhitespace).reverse.dropWhile
    Char.isWhitespace).reverse)

namespace Chatbot

/-- Message of the chatbot page (`interface Message`, chatbot page source).
The timestamp is the millisecond clock value. -/
structure Message where
  id : Nat
  text : String
  fromUser : Bool
  timestamp : Nat
deriving DecidableEq

/-- Video recommendation of the chatbot page
(`interface VideoRecommendation`, chatbot page source). -/
structure VideoRecommendation where
  title : String
  video_id : String
  thumbnail : String
  url : String
deriving DecidableEq

/-- The React state of the chatbot page: `messages`, `inputMessage`,
`sessionId`, `videoRecommendations`, `isLoading` (chatbot page source). -/
structure ChatState where
  messages : List Message
  inputMessage : String
  sessionId : Option String
  videoRecommendations : List VideoRecommendation
  isLoading : Bool
deriving DecidableEq

/-- The JSON body a successful `/chat` call yields: `session_id`,
`video_recommendations`, `response` (chatbot page source, `handleSendMessage`). -/
structure ChatData where
  session_id : Option String
  video_recommendations : List VideoRecommendation
  response : Option String
deriving DecidableEq

/-- Outcome of the `/chat` network call: either a thrown error (network
failure or a non-ok HTTP response) or parsed response data. -/
inductive ChatOutcome where
  | failure
  | success (data : ChatData)

/-- The canned fallback text appended on a failed `/chat` call
(chatbot page source, catch branch of `handleSendMessage`). -/
def connectionErrorText : String :=
  "I\x27m sorry, I\x27m having trouble connecting right now. Please try again in a moment."

/-- `handleSendMessage` of the chatbot page, embedded as a state transformer:
given the clock value `now`, the current state and the outcome of the network
call, it returns the new state and whether a network request was issued.
Guard: empty (after trim) input or a request already in flight returns
unchanged.  Otherwise the trimmed user message is appended, the input
cleared, and on success the session id is adopted only when the current one
is falsy, non-empty video recommendations replace the current ones, and a
truthy `response` is appended as a bot message. -/
def handleSendMessage (now : Nat) (s : ChatState) (o : ChatOutcome) :
    ChatState × Bool :=
  if jsTrim s.inputMessage = "" ∨ s.isLoading then (s, false)
  else
    let messageText := jsTrim s.inputMessage
    let userMessage : Message := ⟨now, messageText, true, now⟩
    let s1 : ChatState :=
      { s with messages := s.messages ++ [userMessage], inputMessage := "", isLoading := true }
    match o with
    | .failure =>
      ({ s1 with
          messages := s1.messages ++ [⟨now, connectionErrorText, false, now⟩],
          isLoading := false }, true)
    | .success data =>
      let s2 : ChatState :=
        if jsTruthy data.session_id ∧ ¬ jsTruthy s1.sessionId then
          { s1 with sessionId := data.session_id }
        else s1
      let s3 : ChatState :=
        if data.video_recommendations.length > 0 then
          { s2 with videoRecommendations := data.video_recommendations }
        else s2
      let s4 : ChatState :=
        match data.response with
        | some r =>
          if r ≠ "" then
            { s3 with messages := s3.messages ++ [⟨now, r, false, now⟩] }
          else s3
        | none => s3
      ({ s4 with isLoading := false }, true)

/-- One page interaction: the user types `input` into the box and submits;
the network call (if issued) resolves to `o`. -/
def chatStep (s : ChatState) (step : String × ChatOutcome) : ChatState :=
  (handleSendMessage 0 { s with inputMessage := step.1 } step.2).1

/-- A sequence of page interactions starting from state `s`. -/
def runChat (s : ChatState) (steps : List (String × ChatOutcome)) : ChatState :=
  steps.foldl chatStep s

/-- The initial state of the chatbot page: the greeting message, empty input,
no session id, no recommendations, not loading (chatbot page source,
`useState` initializers). -/
def initialChatState : ChatState :=
  ⟨[⟨1, "Hello! I\x27m here to support your mental wellness journey. How are you feeling today?",
      false, 0⟩], "", none, [], false⟩

end Chatbot

namespace Scrape

/-- One scraped passage `{text, source}` (`interface ScrapingResult`,
scrape client source). -/
structure ScrapingResult where
  text : String
  source : String
deriving DecidableEq

/-- The `/scrape` response shape (`interface ScrapingResponse`, scrape
client source). -/
structure ScrapingResponse where
  query : String
  total_links_found : Nat
  pages_scraped : Nat
  total_chunks : Nat
  results : List ScrapingResult
  error : Option String
deriving DecidableEq

/-- The metadata record the scrape client keeps for display
(`useState` metadata shape, scrape client source). -/
structure Metadata where
  query : String
  total_links : Nat
  pages_scraped : Nat
  total_chunks : Nat
deriving DecidableEq

/-- The React state of the scrape client: `query`, `isLoading`, `results`,
`metadata`, `error` (scrape client source). -/
structure ScrapeState where
  query : String
  isLoading : Bool
  results : List ScrapingResult
  metadata : Option Metadata
  error : Option String
deriving DecidableEq

/-- Outcome of the `/scrape` network call: a thrown error (network failure
or non-ok HTTP response) or parsed response data. -/
inductive FetchOutcome where
  | httpError
  | ok (data : ScrapingResponse)

/-- The canned error text of the scrape client catch branch. -/
def searchErrorText : String :=
  "Sorry, we encountered an error while searching. Please try again."

/-- `handleSearch` of the scrape client, embedded as a state transformer.
Guard: empty (after trim) query or a request in flight returns unchanged.
Otherwise error, results and metadata are cleared before the request; a
thrown error sets the canned error text; a response with a truthy `error`
field sets that error and leaves results and metadata cleared; otherwise
results and metadata are set from the response.  `isLoading` is reset in
the finally branch. -/
def handleSearch (s : ScrapeState) (o : FetchOutcome) : ScrapeState :=
  if jsTrim s.query = "" ∨ s.isLoading then s
  else
    let s1 : ScrapeState :=
      { s with isLoading := true, error := none, results := [], metadata := none }
    let s2 : ScrapeState :=
      match o with
      | .httpError => { s1 with error := some searchErrorText }
      | .ok data =>
        if jsTruthy data.error then { s1 with error := data.error }
        else
          { s1 with
              results := data.results,
              metadata := some ⟨data.query, data.total_links_found,
                data.pages_scraped, data.total_chunks⟩ }
    { s2 with isLoading := false }

end Scrape

/-- C8: In the chatbot page, a form submission whose input message is empty
after trimming (empty or whitespace-only), or issued while a previous request
is still in flight (`isLoading` true), performs no network request and leaves
the whole state — message list, session id, video recommendations —
unchanged. -/
theorem chatbot_submit_guard (now : Nat) (s : Chatbot.ChatState) (o : Chatbot.ChatOutcome)
    (h : jsTrim s.inputMessage = "" ∨ s.isLoading = true) :
    Chatbot.handleSendMessage now s o = (s, false) := by
  rcases h with h | h
  · simp [Chatbot.handleSendMessage, h]
  · simp [Chatbot.handleSendMessage, h]

/-- C8 witness: a whitespace-only submission at a concrete state is a no-op
and issues no request. -/
theorem chatbot_submit_guard_witness :
    jsTrim "  " = "" ∧
    Chatbot.handleSendMessage 5 ⟨[], "  ", none, [], false⟩ Chatbot.ChatOutcome.failure =
      (⟨[], "  ", none, [], false⟩, false) :=
  ⟨by decide, chatbot_submit_guard 5 ⟨[], "  ", none, [], false⟩ Chatbot.ChatOutcome.failure
    (Or.inl (by decide))⟩

/-- C10: In the scrape client, a guarded-through search submission clears
results, metadata and error before the request, so the outcome state is
independent of the previous results, metadata and error; and when the
response carries a non-empty `error` field, results stay empty, metadata
stays null and the error is exactly the response error. -/
theorem scrape_search_clears_previous (s : Scrape.ScrapeState) (o : Scrape.FetchOutcome)
    (hq : jsTrim s.query ≠ "") (hl : s.isLoading = false) :
    Scrape.handleSearch s o =
      Scrape.handleSearch { s with results := [], metadata := none, error := none } o
    ∧ (∀ d e, o = Scrape.FetchOutcome.ok d → d.error = some e → e ≠ "" →
        (Scrape.handleSearch s o).results = [] ∧
        (Scrape.handleSearch s o).metadata = none ∧
        (Scrape.handleSearch s o).error = some e) := by
  constructor
  · rcases o with _ | d <;> simp [Scrape.handleSearch, hq, hl]
  · intro d e ho he hne
    subst ho
    simp [Scrape.handleSearch, hq, hl, he, jsTruthy, hne]

/-- C10 witness: at a concrete state full of stale results, metadata and
error, a response whose `error` field is `"boom"` yields empty results, null
metadata and the error `"boom"`. -/
theorem scrape_search_clears_previous_witness :
    jsTrim "topic" ≠ "" ∧
    ((Scrape.handleSearch ⟨"topic", false, [⟨"stale", "u"⟩], some ⟨"old", 1, 1, 1⟩,
        some "old error"⟩
        (Scrape.FetchOutcome.ok ⟨"topic", 3, 2, 5, [⟨"t", "u2"⟩], some "boom"⟩)).results = [] ∧
      (Scrape.handleSearch ⟨"topic", false, [⟨"stale", "u"⟩], some ⟨"old", 1, 1, 1⟩,
        some "old error"⟩
        (Scrape.FetchOutcome.ok ⟨"topic", 3, 2, 5, [⟨"t", "u2"⟩], some "boom"⟩)).metadata = none ∧
      (Scrape.handleSearch ⟨"topic", false, [⟨"stale", "u"⟩], some ⟨"old", 1, 1, 1⟩,
        some "old error"⟩
        (Scrape.FetchOutcome.ok ⟨"topic", 3, 2, 5, [⟨"t", "u2"⟩], some "boom"⟩)).error =
        some "boom") :=
  ⟨by decide,
    (scrape_search_clears_previous
      ⟨"topic", false, [⟨"stale", "u"⟩], some ⟨"old", 1, 1, 1⟩, some "old error"⟩
      (Scrape.FetchOutcome.ok ⟨"topic", 3, 2, 5, [⟨"t", "u2"⟩], some "boom"⟩)
      (by decide) rfl).2
      ⟨"topic", 3, 2, 5, [⟨"t", "u2"⟩], some "boom"⟩ "boom" rfl rfl (by decide)⟩

/-- One submission never changes a truthy (non-null, non-empty) session id. -/
theorem hsm_sessionId_of_truthy (now : Nat) (s : Chatbot.ChatState) (o : Chatbot.ChatOutcome)
    (h : jsTruthy s.sessionId = true) :
    (Chatbot.handleSendMessage now s o).1.sessionId = s.sessionId := by
  cases o with
  | failure =>
    simp only [Chatbot.handleSendMessage]
    split
    · rfl
    · rfl
  | success data =>
    simp only [Chatbot.handleSendMessage]
    split
    · rfl
    · simp [h]
      repeat' split
      all_goals rfl

/-- One submission keeps the session id either null or truthy: it is only
ever set from a truthy response `session_id`. -/
theorem hsm_sessionId_good (now : Nat) (s : Chatbot.ChatState) (o : Chatbot.ChatOutcome)
    (h : s.sessionId = none ∨ jsTruthy s.sessionId = true) :
    (Chatbot.handleSendMessage now s o).1.sessionId = none ∨
      jsTruthy (Chatbot.handleSendMessage now s o).1.sessionId = true := by
  cases o with
  | failure =>
    simp only [Chatbot.handleSendMessage]
    split
    · exact h
    · exact h
  | success data =>
    simp only [Chatbot.handleSendMessage]
    split
    · exact h
    · repeat' split
      all_goals simp_all

/-- Any sequence of interactions leaves a truthy session id unchanged. -/
theorem runChat_sessionId_of_truthy (steps : List (String × Chatbot.ChatOutcome)) :
    ∀ s : Chatbot.ChatState, jsTruthy s.sessionId = true →
      (Chatbot.runChat s steps).sessionId = s.sessionId := by
  induction steps with
  | nil => intro s _; rfl
  | cons p rest ih =>
    intro s h
    have h1 : (Chatbot.chatStep s p).sessionId = s.sessionId :=
      hsm_sessionId_of_truthy 0 { s with inputMessage := p.1 } p.2 h
    have h2 : jsTruthy (Chatbot.chatStep s p).sessionId = true := by rw [h1]; exact h
    calc (Chatbot.runChat s (p :: rest)).sessionId
        = (Chatbot.runChat (Chatbot.chatStep s p) rest).sessionId := rfl
      _ = (Chatbot.chatStep s p).sessionId := ih (Chatbot.chatStep s p) h2
      _ = s.sessionId := h1

/-- Any sequence of interactions keeps the session id null or truthy. -/
theorem runChat_sessionId_good (steps : List (String × Chatbot.ChatOutcome)) :
    ∀ s : Chatbot.ChatState, s.sessionId = none ∨ jsTruthy s.sessionId = true →
      ((Chatbot.runChat s steps).sessionId = none ∨
        jsTruthy (Chatbot.runChat s steps).sessionId = true) := by
  induction steps with
  | nil => intro s h; exact h
  | cons p rest ih =>
    intro s h
    exact ih (Chatbot.chatStep s p) (hsm_sessionId_good 0 { s with inputMessage := p.1 } p.2 h)

/-- C9: In the chatbot page, the session id is write-once per page session:
starting from the initial page state (null session id), once any sequence of
interactions has produced session id `x`, every extension of that sequence
still has session id `x`, regardless of the `session_id` values later
responses carry. -/
theorem chatbot_sessionId_write_once (steps1 steps2 : List (String × Chatbot.ChatOutcome))
    (x : String)
    (h : (Chatbot.runChat Chatbot.initialChatState steps1).sessionId = some x) :
    (Chatbot.runChat Chatbot.initialChatState (steps1 ++ steps2)).sessionId = some x := by
  have hg := runChat_sessionId_good steps1 Chatbot.initialChatState (Or.inl rfl)
  rw [h] at hg
  have ht : jsTruthy (Chatbot.runChat Chatbot.initialChatState steps1).sessionId = true := by
    rcases hg with h1 | h2
    · cases h1
    · rw [h]; exact h2
  calc (Chatbot.runChat Chatbot.initialChatState (steps1 ++ steps2)).sessionId
      = (Chatbot.runChat (Chatbot.runChat Chatbot.initialChatState steps1) steps2).sessionId := by
        rw [Chatbot.runChat, Chatbot.runChat, Chatbot.runChat, List.foldl_append]
    _ = (Chatbot.runChat Chatbot.initialChatState steps1).sessionId :=
        runChat_sessionId_of_truthy steps2 _ ht
    _ = some x := h

/-- C9 witness: a first interaction adopts session id `"abc"`; a second
interaction whose response carries `session_id = "other"` leaves it `"abc"`. -/
theorem chatbot_sessionId_write_once_witness :
    (Chatbot.runChat Chatbot.initialChatState
        [("hi", Chatbot.ChatOutcome.success ⟨some "abc", [], some "hello"⟩)]).sessionId =
      some "abc" ∧
    (Chatbot.runChat Chatbot.initialChatState
        ([("hi", Chatbot.ChatOutcome.success ⟨some "abc", [], some "hello"⟩)] ++
          [("again", Chatbot.ChatOutcome.success ⟨some "other", [], some "yo"⟩)])).sessionId =
      some "abc" :=
  ⟨by decide,
    chatbot_sessionId_write_once
      [("hi", Chatbot.ChatOutcome.success ⟨some "abc", [], some "hello"⟩)]
      [("again", Chatbot.ChatOutcome.success ⟨some "other", [], some "yo"⟩)]
      "abc" (by decide)⟩

namespace Pipeline

theorem dedupSeen_sublist {α β : Type} [DecidableEq β] (key : α → β) :
    ∀ (l : List α) (seen : List β), (dedupSeen key seen l).Sublist l := by
  intro l
  induction l with
  | nil => intro seen; simp [dedupSeen]
  | cons a as ih =>
    intro seen
    simp only [dedupSeen]
    split
    · exact (ih seen).trans (List.sublist_cons_self a as)
    · exact (ih (key a :: seen)).cons₂ a

theorem dedupKeyed_sublist {α β : Type} [DecidableEq β] (key : α → β) (l : List α) :
    (dedupKeyed key l).Sublist l :=
  dedupSeen_sublist key l []

theorem rankLE_iff (a b : ScoredChunk) :
    rankLE a b = true ↔
      b.score < a.score ∨ (a.score = b.score ∧ (a.page_rank < b.page_rank ∨
        (a.page_rank = b.page_rank ∧ a.sequence_index ≤ b.sequence_index))) := by
  unfold rankLE
  split_ifs with h1 h2
  · simp [h1, h2, lt_irrefl]
  · simp [h1, h2]
  · simp [h1]

theorem rankLE_trans (a b c : ScoredChunk) (hab : rankLE a b = true)
    (hbc : rankLE b c = true) : rankLE a c = true := by
  rw [rankLE_iff] at *
  rcases hab with h | ⟨he, h2⟩ <;> rcases hbc with g | ⟨ge, g2⟩
  · exact Or.inl (lt_trans g h)
  · exact Or.inl (ge ▸ h)
  · exact Or.inl (by rw [he]; exact g)
  · exact Or.inr ⟨he.trans ge, by omega⟩

theorem rankLE_total (a b : ScoredChunk) : (rankLE a b || rankLE b a) = true := by
  rcases lt_trichotomy a.score b.score with h | h | h
  · have : rankLE b a = true := by rw [rankLE_iff]; exact Or.inl h
    simp [this]
  · by_cases hr : a.page_rank = b.page_rank
    · rcases Nat.le_total a.sequence_index b.sequence_index with hs | hs
      · have : rankLE a b = true := by
          rw [rankLE_iff]; exact Or.inr ⟨h, Or.inr ⟨hr, hs⟩⟩
        simp [this]
      · have : rankLE b a = true := by
          rw [rankLE_iff]; exact Or.inr ⟨h.symm, Or.inr ⟨hr.symm, hs⟩⟩
        simp [this]
    · rcases Nat.lt_or_ge a.page_rank b.page_rank with hlt | hge
      · have : rankLE a b = true := by rw [rankLE_iff]; exact Or.inr ⟨h, Or.inl hlt⟩
        simp [this]
      · have : rankLE b a = true := by
          rw [rankLE_iff]
          exact Or.inr ⟨h.symm, Or.inl (by omega)⟩
        simp [this]
  · have : rankLE a b = true := by rw [rankLE_iff]; exact Or.inl h
    simp [this]

theorem rankLE_antisymm_key (a b : ScoredChunk) (hab : rankLE a b = true)
    (hba : rankLE b a = true) :
    a.score = b.score ∧ a.page_rank = b.page_rank ∧
      a.sequence_index = b.sequence_index := by
  rw [rankLE_iff] at hab hba
  rcases hab with h | ⟨he, h2⟩ <;> rcases hba with g | ⟨ge, g2⟩
  · exact absurd h (lt_asymm g)
  · exact absurd h (ge ▸ lt_irrefl a.score)
  · exact absurd g (he ▸ lt_irrefl b.score)
  · exact ⟨he, by omega, by omega⟩


theorem rank_sublist_sorted (qv : List ℤ) (l : List EmbeddedChunk) (k : Nat) :
    (rank qv l k).Sublist ((l.map (scoreOf qv)).mergeSort rankLE) := by
  unfold rank
  exact (List.take_sublist _ _).trans (dedupSeen_sublist _ _ [])

theorem rank_pairwise (qv : List ℤ) (l : List EmbeddedChunk) (k : Nat) :
    (rank qv l k).Pairwise (fun a b => rankLE a b = true) := by
  have hs := List.sorted_mergeSort
    (fun a b c => rankLE_trans a b c)
    (fun a b => rankLE_total a b)
    (l.map (scoreOf qv))
  exact List.Pairwise.sublist (rank_sublist_sorted qv l k) hs

theorem rank_length_le_k (qv : List ℤ) (l : List EmbeddedChunk) (k : Nat) :
    (rank qv l k).length ≤ k := by
  unfold rank
  exact List.length_take_le _ _

theorem rank_length_le (qv : List ℤ) (l : List EmbeddedChunk) (k : Nat) :
    (rank qv l k).length ≤ l.length := by
  have h1 := (rank_sublist_sorted qv l k).length_le
  have h2 : ((l.map (scoreOf qv)).mergeSort rankLE).length = l.length := by
    rw [(List.mergeSort_perm _ _).length_eq, List.length_map]
  omega

theorem mem_rank (qv : List ℤ) (l : List EmbeddedChunk) (k : Nat) (c : ScoredChunk)
    (h : c ∈ rank qv l k) : ∃ e ∈ l, c = scoreOf qv e := by
  have h1 : c ∈ (l.map (scoreOf qv)).mergeSort rankLE :=
    (rank_sublist_sorted qv l k).mem h
  have h2 : c ∈ l.map (scoreOf qv) := (List.mergeSort_perm _ _).mem_iff.mp h1
  rcases List.mem_map.mp h2 with ⟨e, he, hce⟩
  exact ⟨e, he, hce.symm⟩


theorem sorted_perm_eq {α : Type} {R : α → α → Prop} :
    ∀ (l₁ l₂ : List α), l₁.Perm l₂ → l₁.Pairwise R → l₂.Pairwise R →
      (∀ a ∈ l₁, ∀ b ∈ l₁, R a b → R b a → a = b) → l₁ = l₂ := by
  intro l₁
  induction l₁ with
  | nil =>
    intro l₂ hp _ _ _
    exact hp.nil_eq
  | cons a t ih =>
    intro l₂ hp hs₁ hs₂ hanti
    cases l₂ with
    | nil => exact absurd hp.symm.nil_eq (by simp)
    | cons b t₂ =>
      have hmem_b : b ∈ a :: t := hp.mem_iff.mpr (List.mem_cons_self b t₂)
      have hmem_a : a ∈ b :: t₂ := hp.mem_iff.mp (List.mem_cons_self a t)
      have hab : a = b := by
        by_cases h : a = b
        · exact h
        · have hb_t : b ∈ t := (List.mem_cons.mp hmem_b).resolve_left (fun e => h e.symm)
          have ha_t2 : a ∈ t₂ := (List.mem_cons.mp hmem_a).resolve_left h
          have r1 : R a b := List.rel_of_pairwise_cons hs₁ hb_t
          have r2 : R b a := List.rel_of_pairwise_cons hs₂ ha_t2
          exact hanti a (List.mem_cons_self a t) b hmem_b r1 r2
      subst hab
      have ht : t.Perm t₂ := hp.cons_inv
      have htail := ih t₂ ht hs₁.of_cons hs₂.of_cons
        (fun x hx y hy rxy ryx =>
          hanti x (List.mem_cons_of_mem a hx) y (List.mem_cons_of_mem a hy) rxy ryx)
      rw [htail]

theorem rank_perm_invariant (qv : List ℤ) (k : Nat) (l l2 : List EmbeddedChunk)
    (hperm : l.Perm l2)
    (hinj : ∀ a ∈ l.map (scoreOf qv), ∀ b ∈ l.map (scoreOf qv),
        a.score = b.score → a.page_rank = b.page_rank →
        a.sequence_index = b.sequence_index → a = b) :
    rank qv l2 k = rank qv l k := by
  have hmaps : (l.map (scoreOf qv)).Perm (l2.map (scoreOf qv)) := hperm.map _
  have hsorts : ((l.map (scoreOf qv)).mergeSort rankLE).Perm
      ((l2.map (scoreOf qv)).mergeSort rankLE) :=
    (List.mergeSort_perm _ _).trans (hmaps.trans (List.mergeSort_perm _ _).symm)
  have heq : (l.map (scoreOf qv)).mergeSort rankLE =
      (l2.map (scoreOf qv)).mergeSort rankLE := by
    apply sorted_perm_eq _ _ hsorts
      (List.sorted_mergeSort (fun a b c => rankLE_trans a b c)
        (fun a b => rankLE_total a b) (l.map (scoreOf qv)))
      (List.sorted_mergeSort (fun a b c => rankLE_trans a b c)
        (fun a b => rankLE_total a b) (l2.map (scoreOf qv)))
    intro a ha b hb hab hba
    have ha2 : a ∈ l.map (scoreOf qv) := (List.mergeSort_perm _ _).mem_iff.mp ha
    have hb2 : b ∈ l.map (scoreOf qv) := (List.mergeSort_perm _ _).mem_iff.mp hb
    rcases rankLE_antisymm_key a b hab hba with ⟨h1, h2, h3⟩
    exact hinj a ha2 b hb2 h1 h2 h3
  unfold rank
  rw [heq]


theorem windowsAux_congr (w step : Nat) (hstep : 0 < step) :
    ∀ f1 f2 (raw : List Char), raw.length ≤ f1 → raw.length ≤ f2 →
      windowsAux f1 raw w step = windowsAux f2 raw w step := by
  intro f1
  induction f1 using Nat.strong_induction_on with
  | _ f1 ih =>
    intro f2 raw h1 h2
    cases raw with
    | nil => cases f1 <;> cases f2 <;> rfl
    | cons c cs =>
      cases f1 with
      | zero => simp at h1
      | succ g1 =>
        cases f2 with
        | zero => simp at h2
        | succ g2 =>
          simp only [windowsAux]
          split
          · rfl
          · congr 1
            apply ih g1 (Nat.lt_succ_self g1) g2
            · rw [List.length_drop]
              simp only [List.length_cons] at h1 ⊢
              omega
            · rw [List.length_drop]
              simp only [List.length_cons] at h2 ⊢
              omega

theorem windowsAux_to_windows (w step : Nat) (hstep : 0 < step) (f : Nat)
    (raw : List Char) (h : raw.length ≤ f) :
    windowsAux f raw w step = windows raw w step :=
  windowsAux_congr w step hstep f raw.length raw h (Nat.le_refl _)

theorem windows_getElem (w step : Nat) (hstep : 0 < step) :
    ∀ (i : Nat) (raw : List Char), i < (windows raw w step).length →
      (windows raw w step)[i]? = some ((raw.drop (i * step)).take w) := by
  intro i
  induction i with
  | zero =>
    intro raw hi
    cases raw with
    | nil => simp [windows, windowsAux] at hi
    | cons c cs =>
      show (windowsAux (c :: cs).length (c :: cs) w step)[0]? = _
      simp only [List.length_cons, windowsAux]
      split
      · rename_i h
        have h2 : (c :: cs).length ≤ w := by simpa using h
        simp [List.take_of_length_le h2]
      · simp
  | succ i ih =>
    intro raw hi
    cases raw with
    | nil => simp [windows, windowsAux] at hi
    | cons c cs =>
      have hw : windows (c :: cs) w step =
          windowsAux (cs.length + 1) (c :: cs) w step := rfl
      by_cases h : (c :: cs).length ≤ w
      · rw [hw] at hi
        simp only [windowsAux, List.length_cons] at hi
        rw [if_pos (by simpa using h)] at hi
        simp at hi
      · have hrec : windowsAux cs.length ((c :: cs).drop step) w step =
            windows ((c :: cs).drop step) w step := by
          apply windowsAux_to_windows w step hstep
          rw [List.length_drop]
          simp only [List.length_cons]
          omega
        rw [hw] at hi ⊢
        simp only [windowsAux, List.length_cons] at hi ⊢
        rw [if_neg (by simpa using h)] at hi ⊢
        rw [List.getElem?_cons_succ, hrec]
        rw [List.length_cons, hrec] at hi
        have hi2 : i < (windows ((c :: cs).drop step) w step).length := by omega
        rw [ih _ hi2, List.drop_drop]
        congr 3
        rw [Nat.succ_mul]
        exact Nat.add_comm step (i * step)

theorem windows_full (w step : Nat) (hstep : 0 < step) :
    ∀ (i : Nat) (raw : List Char), i + 1 < (windows raw w step).length →
      ((raw.drop (i * step)).take w).length = w := by
  intro i
  induction i with
  | zero =>
    intro raw hi
    cases raw with
    | nil => simp [windows, windowsAux] at hi
    | cons c cs =>
      by_cases h : (c :: cs).length ≤ w
      · have hone : windows (c :: cs) w step = [c :: cs] := by
          show windowsAux (c :: cs).length (c :: cs) w step = _
          simp only [List.length_cons, windowsAux]
          rw [if_pos (by simpa using h)]
        rw [hone] at hi
        simp at hi
      · simp only [Nat.zero_mul, List.drop_zero, List.length_take]
        simp only [List.length_cons, not_le] at h
        simp only [List.length_cons]
        omega
  | succ i ih =>
    intro raw hi
    cases raw with
    | nil => simp [windows, windowsAux] at hi
    | cons c cs =>
      have hw : windows (c :: cs) w step =
          windowsAux (cs.length + 1) (c :: cs) w step := rfl
      by_cases h : (c :: cs).length ≤ w
      · rw [hw] at hi
        simp only [windowsAux, List.length_cons] at hi
        rw [if_pos (by simpa using h)] at hi
        simp at hi
      · have hrec : windowsAux cs.length ((c :: cs).drop step) w step =
            windows ((c :: cs).drop step) w step := by
          apply windowsAux_to_windows w step hstep
          rw [List.length_drop]
          simp only [List.length_cons]
          omega
        rw [hw] at hi
        simp only [windowsAux, List.length_cons] at hi
        rw [if_neg (by simpa using h)] at hi
        rw [List.length_cons, hrec] at hi
        have hi2 : i + 1 < (windows ((c :: cs).drop step) w step).length := by omega
        have hfull := ih ((c :: cs).drop step) hi2
        rw [List.drop_drop] at hfull
        have harith : (i + 1) * step = step + i * step := by
          rw [Nat.succ_mul]
          exact Nat.add_comm (i * step) step
        rw [harith]
        exact hfull


theorem chunkPage_source_url (w o m : Nat) (pe : PageExtraction) :
    ∀ c ∈ chunkPage w o m pe, c.source_url = pe.source_url := by
  intro c hc
  unfold chunkPage at hc
  rcases List.mem_filterMap.mp hc with ⟨p, _, hp⟩
  split at hp
  · cases hp
    rfl
  · cases hp

theorem chunkPage_min_length (w o m : Nat) (pe : PageExtraction) :
    ∀ c ∈ chunkPage w o m pe, m ≤ c.text.length := by
  intro c hc
  unfold chunkPage at hc
  rcases List.mem_filterMap.mp hc with ⟨p, _, hp⟩
  split at hp
  · rename_i hm
    cases hp
    simpa using hm
  · cases hp

theorem pipelineChunks_source (cfg : Config) (links : List CandidateLink)
    (fetchFn : CandidateLink → PageExtraction) :
    ∀ rc ∈ pipelineChunks cfg links fetchFn,
      ∃ p ∈ okPages links fetchFn, rc.2.source_url = p.2.source_url := by
  intro rc hrc
  unfold pipelineChunks at hrc
  rcases List.mem_flatMap.mp hrc with ⟨p, hp, hin⟩
  rcases List.mem_map.mp hin with ⟨c, hc, hrc2⟩
  refine ⟨p, hp, ?_⟩
  rw [← hrc2]
  exact chunkPage_source_url _ _ _ _ c hc

/-- C4: Chunking is deterministic: two runs of the chunker on identical
`raw_text` with identical `window_size` and `overlap` (and minimum length)
produce identical chunk sequences — same texts, same order, same sequence
indices. -/
theorem chunk_deterministic (w o m : Nat) (pe1 pe2 : PageExtraction)
    (h : pe1.raw_text = pe2.raw_text) :
    (chunkPage w o m pe1).map (fun c => (c.text, c.sequence_index)) =
      (chunkPage w o m pe2).map (fun c => (c.text, c.sequence_index)) := by
  unfold chunkPage
  rw [h]
  rw [List.map_filterMap, List.map_filterMap]
  congr 1
  funext p
  by_cases hm : m ≤ p.2.length <;> simp [hm]

/-- C4 witness: two extractions sharing `raw_text` but differing in URL and
status chunk to the same texts and indices. -/
theorem chunk_deterministic_witness :
    (⟨"u1", "abcdefgh", PageStatus.ok⟩ : PageExtraction).raw_text =
      (⟨"u2", "abcdefgh", PageStatus.timeout⟩ : PageExtraction).raw_text ∧
    (chunkPage 3 1 2 ⟨"u1", "abcdefgh", PageStatus.ok⟩).map
        (fun c => (c.text, c.sequence_index)) =
      (chunkPage 3 1 2 ⟨"u2", "abcdefgh", PageStatus.timeout⟩).map
        (fun c => (c.text, c.sequence_index)) :=
  ⟨rfl, chunk_deterministic 3 1 2 ⟨"u1", "abcdefgh", PageStatus.ok⟩
    ⟨"u2", "abcdefgh", PageStatus.timeout⟩ rfl⟩

/-- C5: With `overlap < window_size`, the chunker splits `raw_text` into
windows of `window_size` characters whose start positions advance by
`window_size - overlap` per step; every window except possibly the last has
exactly `window_size` characters; each pair of consecutive windows shares
exactly `overlap` characters (the last `overlap` characters of one are the
first `overlap` of the next); and every chunk kept in the output has at
least the minimum length. -/
theorem chunk_window_structure (w o m : Nat) (pe : PageExtraction) (ho : o < w) :
    (∀ i, i < (windows pe.raw_text.data w (w - o)).length →
      (windows pe.raw_text.data w (w - o))[i]? =
        some ((pe.raw_text.data.drop (i * (w - o))).take w))
    ∧ (∀ i, i + 1 < (windows pe.raw_text.data w (w - o)).length →
        ∃ win, (windows pe.raw_text.data w (w - o))[i]? = some win ∧ win.length = w)
    ∧ (∀ i wi wj, (windows pe.raw_text.data w (w - o))[i]? = some wi →
        (windows pe.raw_text.data w (w - o))[i + 1]? = some wj →
        wj.take o = wi.drop (w - o) ∧ (wi.drop (w - o)).length = o)
    ∧ (∀ c ∈ chunkPage w o m pe, m ≤ c.text.length) := by
  have hstep : 0 < w - o := by omega
  refine ⟨fun i hi => windows_getElem w (w - o) hstep i _ hi, ?_, ?_, ?_⟩
  · intro i hi
    refine ⟨(pe.raw_text.data.drop (i * (w - o))).take w, ?_, ?_⟩
    · exact windows_getElem w (w - o) hstep i _ (by omega)
    · exact windows_full w (w - o) hstep i _ hi
  · intro i wi wj hwi hwj
    have hlen2 : i + 1 < (windows pe.raw_text.data w (w - o)).length := by
      rcases List.getElem?_eq_some_iff.mp hwj with ⟨hl, _⟩
      exact hl
    have hlen1 : i < (windows pe.raw_text.data w (w - o)).length := by omega
    have hwi2 := windows_getElem w (w - o) hstep i pe.raw_text.data hlen1
    have hwj2 := windows_getElem w (w - o) hstep (i + 1) pe.raw_text.data hlen2
    rw [hwi] at hwi2
    rw [hwj] at hwj2
    have hwi3 : wi = (pe.raw_text.data.drop (i * (w - o))).take w :=
      Option.some_injective _ hwi2
    have hwj3 : wj = (pe.raw_text.data.drop ((i + 1) * (w - o))).take w :=
      Option.some_injective _ hwj2
    have hfull : wi.length = w := by
      rw [hwi3]
      exact windows_full w (w - o) hstep i _ hlen2
    constructor
    · rw [hwi3, hwj3]
      rw [List.take_take]
      rw [List.drop_take]
      rw [List.drop_drop]
      have h1 : o ⊓ w = o := by omega
      have h2 : w - (w - o) = o := by omega
      have h3 : i * (w - o) + (w - o) = (i + 1) * (w - o) := by
        rw [Nat.succ_mul]
      rw [h1, h2, h3]
    · rw [List.length_drop, hfull]
      omega
  · exact chunkPage_min_length w o m pe

/-- C5 witness: with window 3, overlap 1 and text `"abcdefgh"`, window 1 is
characters 2 to 4, and consecutive windows share one character. -/
theorem chunk_window_structure_witness :
    1 < 3 ∧
    ((windows ("abcdefgh".data) 3 (3 - 1))[1]? =
      some ((("abcdefgh".data).drop (1 * (3 - 1))).take 3)) ∧
    (("cde".data).take 1 = ("abc".data).drop (3 - 1) ∧
      (("abc".data).drop (3 - 1)).length = 1) :=
  ⟨by decide,
    (chunk_window_structure 3 1 2 ⟨"u", "abcdefgh", PageStatus.ok⟩ (by decide)).1
      1 (by decide),
    (chunk_window_structure 3 1 2 ⟨"u", "abcdefgh", PageStatus.ok⟩ (by decide)).2.2.1
      0 ("abc".data) ("cde".data) (by decide) (by decide)⟩


theorem okPages_length_le (links : List CandidateLink)
    (fetchFn : CandidateLink → PageExtraction) :
    (okPages links fetchFn).length ≤ links.length := by
  unfold okPages fetchAll
  calc (((links.map (fun l => (l.rank, fetchFn l))).filter
          (fun p => decide (p.2.status = PageStatus.ok)))).length
      ≤ (links.map (fun l => (l.rank, fetchFn l))).length :=
        List.length_filter_le _ _
    _ = links.length := List.length_map _ _

/-- C7: Zero candidate links, or a run in which no fetched page has `ok`
status (so no chunks survive), yields a valid response with empty results,
accurate counters and no error — never a fatal error; more generally any run
whose chunk list is empty has `error` absent and empty results. -/
theorem pipeline_empty_not_error (cfg : Config) (q : String)
    (fetchFn : CandidateLink → PageExtraction)
    (embedder : Except String (String → List ℤ)) :
    runPipeline cfg q (Except.ok []) fetchFn embedder =
      ⟨q, 0, 0, 0, [], none⟩
    ∧ (∀ provided : List CandidateLink,
        (∀ l ∈ resolve cfg.max_links provided, (fetchFn l).status ≠ PageStatus.ok) →
        runPipeline cfg q (Except.ok provided) fetchFn embedder =
          ⟨q, (resolve cfg.max_links provided).length, 0, 0, [], none⟩)
    ∧ (∀ provided : List CandidateLink,
        pipelineChunks cfg (resolve cfg.max_links provided) fetchFn = [] →
        (runPipeline cfg q (Except.ok provided) fetchFn embedder).error = none ∧
        (runPipeline cfg q (Except.ok provided) fetchFn embedder).results = []) := by
  refine ⟨?_, ?_, ?_⟩
  · have hres : resolve cfg.max_links ([] : List CandidateLink) = [] := by
      simp [resolve, dedupKeyed, dedupSeen]
    simp [runPipeline, hres, pipelineChunks, okPages, fetchAll]
  · intro provided hfail
    have hok : okPages (resolve cfg.max_links provided) fetchFn = [] := by
      unfold okPages fetchAll
      rw [List.filter_eq_nil_iff]
      intro p hp
      rcases List.mem_map.mp hp with ⟨l, hl, hpl⟩
      subst hpl
      simpa using hfail l hl
    have hchunks : pipelineChunks cfg (resolve cfg.max_links provided) fetchFn = [] := by
      unfold pipelineChunks
      rw [hok]
      rfl
    simp [runPipeline, hchunks, hok]
  · intro provided hchunks
    have hemp : (pipelineChunks cfg (resolve cfg.max_links provided) fetchFn).isEmpty = true := by
      rw [hchunks]
      rfl
    constructor
    · simp [runPipeline, hemp]
    · simp [runPipeline, hemp]

/-- C7 witness: a provider returning two links both of which fail to fetch
yields the empty-results response with both links counted and no error. -/
theorem pipeline_empty_not_error_witness :
    (∀ l ∈ resolve 5 [⟨"http://a", 0⟩, ⟨"http://b", 1⟩],
      ((fun l2 => (⟨l2.url, "", PageStatus.fetch_failed⟩ : PageExtraction)) l).status ≠
        PageStatus.ok) ∧
    runPipeline ⟨5, 3, 1, 2, 4⟩ "stress relief"
        (Except.ok [⟨"http://a", 0⟩, ⟨"http://b", 1⟩])
        (fun l2 => ⟨l2.url, "", PageStatus.fetch_failed⟩)
        (Except.ok (fun _ => [1])) =
      ⟨"stress relief",
        (resolve 5 [⟨"http://a", 0⟩, ⟨"http://b", 1⟩]).length, 0, 0, [], none⟩ :=
  ⟨by decide,
    (pipeline_empty_not_error ⟨5, 3, 1, 2, 4⟩ "stress relief"
        (fun l2 => ⟨l2.url, "", PageStatus.fetch_failed⟩)
        (Except.ok (fun _ => [1]))).2.1
      [⟨"http://a", 0⟩, ⟨"http://b", 1⟩] (by decide)⟩


/-- C3: When the search provider succeeds with at least one candidate link,
`pages_scraped` never exceeds `total_links_found`; and every successful
(error-free) run returns at most `top_k` results and no more results than
`total_chunks`. -/
theorem pipeline_counter_invariants (cfg : Config) (q : String)
    (provider : Except String (List CandidateLink))
    (fetchFn : CandidateLink → PageExtraction)
    (embedder : Except String (String → List ℤ)) :
    (∀ provided, provider = Except.ok provided →
        1 ≤ (resolve cfg.max_links provided).length →
        (runPipeline cfg q provider fetchFn embedder).pages_scraped ≤
          (runPipeline cfg q provider fetchFn embedder).total_links_found)
    ∧ ((runPipeline cfg q provider fetchFn embedder).error = none →
        (runPipeline cfg q provider fetchFn embedder).results.length ≤ cfg.top_k ∧
        (runPipeline cfg q provider fetchFn embedder).results.length ≤
          (runPipeline cfg q provider fetchFn embedder).total_chunks) := by
  constructor
  · intro provided hp _
    subst hp
    have hle := okPages_length_le (resolve cfg.max_links provided) fetchFn
    by_cases he : (pipelineChunks cfg (resolve cfg.max_links provided) fetchFn).isEmpty = true
    · simpa [runPipeline, he] using hle
    · cases embedder with
      | error e => simp [runPipeline, he]
      | ok embedFn => simpa [runPipeline, he] using hle
  · intro herr
    cases provider with
    | error e => simp [runPipeline] at herr
    | ok provided =>
      by_cases he : (pipelineChunks cfg (resolve cfg.max_links provided) fetchFn).isEmpty = true
      · simp [runPipeline, he]
      · cases embedder with
        | error e => simp [runPipeline, he] at herr
        | ok embedFn =>
          have h1 := rank_length_le_k (embedFn q)
            (embeddedChunks cfg (resolve cfg.max_links provided) fetchFn embedFn) cfg.top_k
          have h2 := rank_length_le (embedFn q)
            (embeddedChunks cfg (resolve cfg.max_links provided) fetchFn embedFn) cfg.top_k
          have h3 : (embeddedChunks cfg (resolve cfg.max_links provided) fetchFn embedFn).length =
              (pipelineChunks cfg (resolve cfg.max_links provided) fetchFn).length := by
            unfold embeddedChunks
            exact List.length_map _ _
          constructor
          · simpa [runPipeline, he] using h1
          · simp [runPipeline, he]
            omega

/-- C3 witness: a run with one link that fails to fetch has
`pages_scraped = 0 ≤ 1 = total_links_found`, and being error-free returns
`0 ≤ top_k` results and `0 ≤ total_chunks`. -/
theorem pipeline_counter_invariants_witness :
    (runPipeline ⟨5, 3, 1, 2, 4⟩ "q" (Except.ok [⟨"http://a", 0⟩])
        (fun l2 => ⟨l2.url, "", PageStatus.fetch_failed⟩)
        (Except.ok (fun _ => [1]))).pages_scraped ≤
      (runPipeline ⟨5, 3, 1, 2, 4⟩ "q" (Except.ok [⟨"http://a", 0⟩])
        (fun l2 => ⟨l2.url, "", PageStatus.fetch_failed⟩)
        (Except.ok (fun _ => [1]))).total_links_found ∧
    (runPipeline ⟨5, 3, 1, 2, 4⟩ "q" (Except.ok [⟨"http://a", 0⟩])
        (fun l2 => ⟨l2.url, "", PageStatus.fetch_failed⟩)
        (Except.ok (fun _ => [1]))).results.length ≤ (4 : Nat) :=
  ⟨(pipeline_counter_invariants ⟨5, 3, 1, 2, 4⟩ "q" (Except.ok [⟨"http://a", 0⟩])
      (fun l2 => ⟨l2.url, "", PageStatus.fetch_failed⟩)
      (Except.ok (fun _ => [1]))).1 [⟨"http://a", 0⟩] rfl (by decide),
    ((pipeline_counter_invariants ⟨5, 3, 1, 2, 4⟩ "q" (Except.ok [⟨"http://a", 0⟩])
      (fun l2 => ⟨l2.url, "", PageStatus.fetch_failed⟩)
      (Except.ok (fun _ => [1]))).2 (by decide)).1⟩


/-- C2: The `error` field of a pipeline response is populated exactly when
the run terminates fatally — the search provider call failed, or chunks
survived and the embedder backend failed (with no surviving chunks the
embedder is never invoked, so per-page failures alone never populate
`error`) — and a fatal response carries zero counters and empty results. -/
theorem pipeline_error_iff_fatal (cfg : Config) (q : String)
    (provider : Except String (List CandidateLink))
    (fetchFn : CandidateLink → PageExtraction)
    (embedder : Except String (String → List ℤ)) :
    ((runPipeline cfg q provider fetchFn embedder).error ≠ none ↔
      ((∃ e, provider = Except.error e) ∨
        (∃ provided, provider = Except.ok provided ∧
          pipelineChunks cfg (resolve cfg.max_links provided) fetchFn ≠ [] ∧
          ∃ e, embedder = Except.error e)))
    ∧ ((runPipeline cfg q provider fetchFn embedder).error ≠ none →
        (runPipeline cfg q provider fetchFn embedder).total_links_found = 0 ∧
        (runPipeline cfg q provider fetchFn embedder).pages_scraped = 0 ∧
        (runPipeline cfg q provider fetchFn embedder).total_chunks = 0 ∧
        (runPipeline cfg q provider fetchFn embedder).results = []) := by
  cases provider with
  | error e => simp [runPipeline]
  | ok provided =>
    by_cases he : (pipelineChunks cfg (resolve cfg.max_links provided) fetchFn).isEmpty = true
    · have hnil : pipelineChunks cfg (resolve cfg.max_links provided) fetchFn = [] :=
        List.isEmpty_iff.mp he
      simp [runPipeline, he, hnil]
    · have hnil : pipelineChunks cfg (resolve cfg.max_links provided) fetchFn ≠ [] := by
        intro hc
        exact he (by rw [hc]; rfl)
      cases embedder with
      | error e => simp [runPipeline, he, hnil]
      | ok embedFn => simp [runPipeline, he, hnil]

/-- C2 witness: a failed search provider call yields a response whose error
is populated and whose counters are all zero with empty results. -/
theorem pipeline_error_iff_fatal_witness :
    (runPipeline ⟨5, 3, 1, 2, 4⟩ "q"
        (Except.error "connection error")
        (fun l2 => ⟨l2.url, "", PageStatus.fetch_failed⟩)
        (Except.ok (fun _ => [1]))).error ≠ none ∧
    ((runPipeline ⟨5, 3, 1, 2, 4⟩ "q"
        (Except.error "connection error")
        (fun l2 => ⟨l2.url, "", PageStatus.fetch_failed⟩)
        (Except.ok (fun _ => [1]))).total_links_found = 0 ∧
      (runPipeline ⟨5, 3, 1, 2, 4⟩ "q"
        (Except.error "connection error")
        (fun l2 => ⟨l2.url, "", PageStatus.fetch_failed⟩)
        (Except.ok (fun _ => [1]))).pages_scraped = 0 ∧
      (runPipeline ⟨5, 3, 1, 2, 4⟩ "q"
        (Except.error "connection error")
        (fun l2 => ⟨l2.url, "", PageStatus.fetch_failed⟩)
        (Except.ok (fun _ => [1]))).total_chunks = 0 ∧
      (runPipeline ⟨5, 3, 1, 2, 4⟩ "q"
        (Except.error "connection error")
        (fun l2 => ⟨l2.url, "", PageStatus.fetch_failed⟩)
        (Except.ok (fun _ => [1]))).results = []) :=
  ⟨by decide,
    (pipeline_error_iff_fatal ⟨5, 3, 1, 2, 4⟩ "q"
        (Except.error "connection error")
        (fun l2 => ⟨l2.url, "", PageStatus.fetch_failed⟩)
        (Except.ok (fun _ => [1]))).2 (by decide)⟩


/-- C6: Ranking imposes a total order: the output is sorted by descending
similarity score, equal scores are broken by lower original page rank and
then lower sequence index; and re-ranking any permutation of the same
embedded chunks against the same query vector yields the identical results
sequence whenever the tie-break key determines the chunk, so the order is
independent of fetch completion order. -/
theorem rank_total_order (qv : List ℤ) (l : List EmbeddedChunk) (k : Nat) :
    ((rank qv l k).Pairwise (fun a b =>
        b.score < a.score ∨ (a.score = b.score ∧ (a.page_rank < b.page_rank ∨
          (a.page_rank = b.page_rank ∧ a.sequence_index ≤ b.sequence_index)))))
    ∧ (∀ l2, l.Perm l2 →
        (∀ a ∈ l.map (scoreOf qv), ∀ b ∈ l.map (scoreOf qv),
          a.score = b.score → a.page_rank = b.page_rank →
          a.sequence_index = b.sequence_index → a = b) →
        rank qv l2 k = rank qv l k) := by
  constructor
  · exact (rank_pairwise qv l k).imp (fun h => (rankLE_iff _ _).mp h)
  · intro l2 hperm hinj
    exact rank_perm_invariant qv k l l2 hperm hinj

/-- C6 witness: two chunks from different pages with equal scores, presented
in either fetch order, rank identically (and the lower-rank page first). -/
theorem rank_total_order_witness :
    ([⟨"ta", "ua", 0, 0, [1]⟩, ⟨"tb", "ub", 0, 1, [1]⟩] :
        List EmbeddedChunk).Perm
      [⟨"tb", "ub", 0, 1, [1]⟩, ⟨"ta", "ua", 0, 0, [1]⟩] ∧
    rank [1] [⟨"tb", "ub", 0, 1, [1]⟩, ⟨"ta", "ua", 0, 0, [1]⟩] 2 =
      rank [1] [⟨"ta", "ua", 0, 0, [1]⟩, ⟨"tb", "ub", 0, 1, [1]⟩] 2 :=
  ⟨List.Perm.swap (⟨"tb", "ub", 0, 1, [1]⟩ : EmbeddedChunk) (⟨"ta", "ua", 0, 0, [1]⟩ : EmbeddedChunk) [],
    (rank_total_order [1] [⟨"ta", "ua", 0, 0, [1]⟩, ⟨"tb", "ub", 0, 1, [1]⟩] 2).2
      [⟨"tb", "ub", 0, 1, [1]⟩, ⟨"ta", "ua", 0, 0, [1]⟩]
      (List.Perm.swap (⟨"tb", "ub", 0, 1, [1]⟩ : EmbeddedChunk) (⟨"ta", "ua", 0, 0, [1]⟩ : EmbeddedChunk) [])
      (by decide)⟩


/-- C1: Every pipeline response echoes the query, carries results that are
the projection `{text, source}` of a score-sorted (descending) list of
ranked chunks, and attributes each result entry to the source URL of one of
the run's successfully scraped pages.  (The field set of the response —
query, total_links_found, pages_scraped, total_chunks, results, error? —
is the `Response` structure itself.) -/
theorem pipeline_response_shape (cfg : Config) (q : String)
    (provider : Except String (List CandidateLink))
    (fetchFn : CandidateLink → PageExtraction)
    (embedder : Except String (String → List ℤ)) :
    (runPipeline cfg q provider fetchFn embedder).query = q
    ∧ (∃ sc : List ScoredChunk,
        (runPipeline cfg q provider fetchFn embedder).results =
          sc.map (fun c => ⟨c.text, c.source_url⟩) ∧
        sc.Pairwise (fun a b => b.score ≤ a.score))
    ∧ (∀ entry ∈ (runPipeline cfg q provider fetchFn embedder).results,
        ∀ provided, provider = Except.ok provided →
          ∃ p ∈ okPages (resolve cfg.max_links provided) fetchFn,
            entry.source = p.2.source_url) := by
  refine ⟨?_, ?_, ?_⟩
  · cases provider with
    | error e => rfl
    | ok provided =>
      by_cases he : (pipelineChunks cfg (resolve cfg.max_links provided) fetchFn).isEmpty = true
      · simp [runPipeline, he]
      · cases embedder with
        | error e => simp [runPipeline, he]
        | ok embedFn => simp [runPipeline, he]
  · cases provider with
    | error e => exact ⟨[], rfl, List.Pairwise.nil⟩
    | ok provided =>
      by_cases he : (pipelineChunks cfg (resolve cfg.max_links provided) fetchFn).isEmpty = true
      · exact ⟨[], by simp [runPipeline, he], List.Pairwise.nil⟩
      · cases embedder with
        | error e => exact ⟨[], by simp [runPipeline, he], List.Pairwise.nil⟩
        | ok embedFn =>
          refine ⟨rank (embedFn q)
            (embeddedChunks cfg (resolve cfg.max_links provided) fetchFn embedFn) cfg.top_k,
            by simp [runPipeline, he], ?_⟩
          refine (rank_pairwise _ _ _).imp ?_
          intro a b hab
          rcases (rankLE_iff a b).mp hab with h | ⟨h, _⟩
          · exact le_of_lt h
          · exact le_of_eq h.symm
  · intro entry hentry provided hp
    subst hp
    by_cases he : (pipelineChunks cfg (resolve cfg.max_links provided) fetchFn).isEmpty = true
    · simp [runPipeline, he] at hentry
    · cases embedder with
      | error e => simp [runPipeline, he] at hentry
      | ok embedFn =>
        simp only [runPipeline, he] at hentry
        rw [if_neg (by simp [he])] at hentry
        simp only [List.mem_map] at hentry
        rcases hentry with ⟨c, hc, hce⟩
        rcases mem_rank _ _ _ c hc with ⟨e2, he2, hcs⟩
        unfold embeddedChunks at he2
        rcases List.mem_map.mp he2 with ⟨rc, hrc, hee⟩
        rcases pipelineChunks_source cfg _ fetchFn rc hrc with ⟨p, hp2, hsrc⟩
        refine ⟨p, hp2, ?_⟩
        have h1 : entry.source = c.source_url := by rw [← hce]
        have h2 : c.source_url = e2.source_url := by rw [hcs]; rfl
        have h3 : e2.source_url = rc.2.source_url := by rw [← hee]
        rw [h1, h2, h3, hsrc]

unseal List.merge List.mergeSort in
/-- C1 witness: a concrete successful run over one page with text
`"abcdef"` returns the entry with text `"abc"` and source `"http://a"`,
whose source is the URL of the successfully scraped page. -/
theorem pipeline_response_shape_witness :
    ((⟨"abc", "http://a"⟩ : ResultEntry) ∈
      (runPipeline ⟨5, 3, 1, 2, 4⟩ "q" (Except.ok [⟨"http://a", 0⟩])
        (fun l2 => ⟨l2.url, "abcdef", PageStatus.ok⟩)
        (Except.ok (fun _ => [1]))).results) ∧
    (∃ p ∈ okPages (resolve 5 [⟨"http://a", 0⟩])
        (fun l2 => ⟨l2.url, "abcdef", PageStatus.ok⟩),
      (⟨"abc", "http://a"⟩ : ResultEntry).source = p.2.source_url) :=
  ⟨by decide,
    (pipeline_response_shape ⟨5, 3, 1, 2, 4⟩ "q" (Except.ok [⟨"http://a", 0⟩])
        (fun l2 => ⟨l2.url, "abcdef", PageStatus.ok⟩)
        (Except.ok (fun _ => [1]))).2.2
      ⟨"abc", "http://a"⟩ (by decide) [⟨"http://a", 0⟩] rfl⟩

end Pipeline
